import Mathlib

/-
Shallow embedding of `src/main.py` of the hn_into_llm repository.

The program fetches a user's favorited Hacker News threads, paginates
through the favorites listing, and renders each thread's comments as an
indented markdown document.  The HTTP transport and file I/O are external
collaborators: here a fetched-and-parsed listing page is a `ListingPage`
value and a fetched thread page is a `ThreadPage` value, and the functions
below mirror the pure computations the Python code performs on the parsed
soup.  Machine integers do not occur (Python ints are unbounded); pixel
widths are modelled as `Nat`.
-/

/-- Splits a character list at newline characters; the accumulator holds
the current line reversed.  This is the executable model of splitting text
into lines (Python's `"\n"`-based splitting), used instead of
`String.splitOn`, whose well-founded recursion the kernel cannot reduce. -/
def splitNlAux : List Char → List Char → List (List Char)
  | [], cur => [cur.reverse]
  | c :: cs, cur =>
    if c = '\n' then cur.reverse :: splitNlAux cs []
    else splitNlAux cs (c :: cur)

/-- The lines of a text, splitting at every newline (so a trailing newline
contributes a final empty line, like Python `s.split("\n")`). -/
def docLines (s : String) : List String :=
  (splitNlAux s.toList []).map String.mk

/-- Mirrors Python `str.strip()`: remove leading and trailing whitespace
(the text handled here only carries ASCII whitespace, where
`Char.isWhitespace` and Python's notion agree). -/
def pyStrip (s : String) : String :=
  String.mk (((s.toList.dropWhile Char.isWhitespace).reverse.dropWhile
    Char.isWhitespace).reverse)

/-- Mirrors `BASE_URL = "https://news.ycombinator.com"`. -/
def BASE_URL : String := "https://news.ycombinator.com"

/-- One `<a>` element of a listing page: its `href` attribute and its text
content (matched by `soup.find("a", string="More")`). -/
structure Anchor where
  href : String
  text : String
deriving DecidableEq

/-- A fetched favorites listing page: `soup.text` and the anchor elements
found by `soup.find_all("a", href=pattern)` / `soup.find("a", string=...)`,
in document order. -/
structure ListingPage where
  pageText : String
  anchors : List Anchor
deriving DecidableEq

/-- Mirrors `user_exists(soup): return soup.text != "No such user."`. -/
def user_exists (p : ListingPage) : Bool :=
  p.pageText != "No such user."

/-- Mirrors Python `href.lstrip("/")`: drop every leading slash. -/
def lstripSlashes (s : String) : String :=
  String.mk (s.toList.dropWhile (fun c => c == '/'))

/-- Mirrors the regex `^/?item\?id=\d+$`: an optional single leading slash,
then the literal `item?id=`, then one or more digits, then end of string
(computed on the character list so the kernel can evaluate it). -/
def item_href_matches (s : String) : Bool :=
  let t := if List.isPrefixOf ['/'] s.toList then s.toList.drop 1 else s.toList
  List.isPrefixOf "item?id=".toList t
    && !((t.drop 8).isEmpty) && (t.drop 8).all Char.isDigit

/-- Mirrors `BASE_URL + "/" + a["href"].lstrip("/")`. -/
def normalize_href (s : String) : String :=
  BASE_URL ++ "/" ++ lstripSlashes s

/-- Mirrors the set comprehension
`{BASE_URL + "/" + a["href"].lstrip("/") for a in soup.find_all("a", href=pattern)}`.
The Python value is a set; it is modelled as the duplicate-free list of
normalized hrefs in first-occurrence document order (CPython's set iteration
order is unspecified, so the within-page order is a modelling choice; the
membership and duplicate-freeness are faithful). -/
def extractLinks (p : ListingPage) : List String :=
  ((p.anchors.filter (fun a => item_href_matches a.href)).map
    (fun a => normalize_href a.href)).dedup

/-- Mirrors `soup.find("a", string="More")`, projected to its href. -/
def moreHref (p : ListingPage) : Option String :=
  (p.anchors.find? (fun a => a.text == "More")).map Anchor.href

/-- Mirrors `next_page = BASE_URL + "/" + more_link["href"] if more_link else None`. -/
def next_page (p : ListingPage) : Option String :=
  (moreHref p).map (fun h => BASE_URL ++ "/" ++ h)

/-- The error raised by `get_item_links_from_page` when the user does not
exist (`raise ValueError(...)` in the source). -/
inductive ExtractError where
  | validationError
deriving DecidableEq

/-- Mirrors `get_item_links_from_page` (minus the HTTP fetch, which is
performed by the caller's collaborator and is out of scope): raise when the
page says the user does not exist, otherwise return the per-page link set
and the optional next-page URL. -/
def get_item_links_from_page (p : ListingPage) :
    Except ExtractError (List String × Option String) :=
  if user_exists p then Except.ok (extractLinks p, next_page p)
  else Except.error ExtractError.validationError

/-- Mirrors `LINK_LIMIT = 10`. -/
def LINK_LIMIT : Nat := 10

/-- The `while url:` loop of `retrieve_user_favorite_links`, one recursive
step per fetched listing page.  The page sequence `pages` models the chain
of pages the successive URLs resolve to; following the next-page URL moves
to the next list element.  After extending the accumulator with a page's
links the code checks `len(all_links) >= limit`, truncates to `limit` and
breaks; otherwise it continues while a next-page URL exists. -/
def walkPages : List ListingPage → Nat → List String → Except ExtractError (List String)
  | [], _, acc => Except.ok acc
  | p :: rest, limit, acc =>
    match get_item_links_from_page p with
    | Except.error e => Except.error e
    | Except.ok (links, next) =>
      if limit ≤ (acc ++ links).length then Except.ok ((acc ++ links).take limit)
      else
        match next with
        | none => Except.ok (acc ++ links)
        | some _ => walkPages rest limit (acc ++ links)

/-- Mirrors `retrieve_user_favorite_links(user, limit)`: start from the
favorites URL (the head of the page chain) with an empty accumulator.
The temporary-file side effect at the end of the Python function is I/O and
out of scope; the returned list is what is modelled. -/
def retrieve_user_favorite_links (pages : List ListingPage) (limit : Nat) :
    Except ExtractError (List String) :=
  walkPages pages limit []

/-- Number of links discoverable along the page chain: per-page extracted
link counts summed over the pages actually reachable (the walk follows the
next-page URL, so pages after one with no "More" link are unreachable). -/
def discoverable : List ListingPage → Nat
  | [] => 0
  | p :: rest =>
    (extractLinks p).length + (if (moreHref p).isSome then discoverable rest else 0)

/-- Concatenation of the per-page extracted link lists along the reachable
page chain, in page-fetch order. -/
def pageChainLinks : List ListingPage → List String
  | [] => []
  | p :: rest =>
    extractLinks p ++ (if (moreHref p).isSome then pageChainLinks rest else [])

/-- The indentation cell of a comment row (`row.find("td", class_="ind")`):
its `<img>` child's `width` attribute when that child exists. -/
structure IndTd where
  img : Option Nat
deriving DecidableEq

/-- One `<div>`/`<span>` text chunk inside a comment's text container, with
its CSS classes; `decompose` removes chunks classed `reply` or `unvoted`,
and `get_text("\n")` joins the texts of the remaining chunks. -/
structure DivChunk where
  classes : List String
  chunkText : String
deriving DecidableEq

/-- One comment row (`<tr class="athing comtr">`) of a thread page: the
optional indentation cell, the optional author link's display name
(`row.find("a", class_="hnuser")`), and the optional comment text container
(`row.find("div", class_="comment")`), modelled as its text chunks. -/
structure CommentRow where
  indTd : Option IndTd
  authorLink : Option String
  commentDiv : Option (List DivChunk)
deriving DecidableEq

/-- A fetched thread page: the optional `<title>` text, the last
`=`-separated segment of the page URL (`url.split('=')[-1]`, used for the
title fallback), and the comment rows in document order. -/
structure ThreadPage where
  title : Option String
  urlLastSegment : String
  rows : List CommentRow
deriving DecidableEq

/-- One extracted comment record `(indent_level, author_text, comment_html)`. -/
structure CommentRecord where
  depth : Nat
  author : String
  body : String
deriving DecidableEq

/-- Failure of the flattener; the only unguarded structural access is
`commtext_td.find_all(...)` on a `None` container, which raises
`AttributeError` in Python. -/
inductive FlattenError where
  | missingCommentContainer
deriving DecidableEq

/-- Mirrors `indent_px = int(indent_td.img["width"]) if indent_td and indent_td.img else 0`. -/
def indent_px (row : CommentRow) : Nat :=
  match row.indTd with
  | some td =>
    match td.img with
    | some w => w
    | none => 0
  | none => 0

/-- Mirrors `author_text = author.text if author else "[deleted]"`. -/
def author_text (row : CommentRow) : String :=
  match row.authorLink with
  | some a => a
  | none => "[deleted]"

/-- Mirrors removing the `reply`/`unvoted` sub-elements from the comment
container, then `get_text("\n").strip()`. -/
def comment_text (chunks : List DivChunk) : String :=
  pyStrip (String.intercalate "\n"
    ((chunks.filter
      (fun c => !(c.classes.contains "reply" || c.classes.contains "unvoted"))).map
      DivChunk.chunkText))

/-- The per-row body of the extraction loop of `fetch_hn_thread_markdown`:
depth from the indentation proxy, author with the `[deleted]` placeholder,
body from the comment container.  A missing comment container is the
unguarded `AttributeError`, modelled as the error case. -/
def flattenRow (row : CommentRow) : Except FlattenError CommentRecord :=
  match row.commentDiv with
  | none => Except.error FlattenError.missingCommentContainer
  | some chunks =>
    Except.ok ⟨indent_px row / 40, author_text row, comment_text chunks⟩

/-- The extraction loop over all comment rows, in document order; the first
row whose container is missing aborts the whole extraction, as the Python
loop's unhandled exception does. -/
def flattenRows : List CommentRow → Except FlattenError (List CommentRecord)
  | [] => Except.ok []
  | row :: rest =>
    match flattenRow row with
    | Except.error e => Except.error e
    | Except.ok c =>
      match flattenRows rest with
      | Except.error e => Except.error e
      | Except.ok cs => Except.ok (c :: cs)

/-- Mirrors the `CONTEXT_PROMPT` constant, byte for byte. -/
def CONTEXT_PROMPT : String :=
  "\n## Context\n\nThe following is a Hacker News thread in markdown format. The comments discuss a\ncertain link, of which the content (besides the title) is not included here. The\ncomments are indented according to the level of the comment, with the top-level\ncomment being unindented.\n"

/-- Mirrors Python `str.splitlines()` for `\n`-separated text (the only
line separator the extraction produces, via `get_text("\n")`): the empty
string yields no lines, and a trailing newline yields no trailing empty
line. -/
def pySplitlines (s : String) : List String :=
  if s.toList.isEmpty then []
  else if s.toList.getLast? = some '\n' then (docLines s).dropLast
  else docLines s

/-- The `md_lines` entries one comment record contributes: the list-item
line `indent_str + "- **author**:\n"` (note the trailing newline in the
source f-string), one entry `indent_str + "  " + line` per body line, and
the empty-string separator entry. -/
def commentLines (c : CommentRecord) : List String :=
  let ind := String.join (List.replicate c.depth "  ")
  (ind ++ "- **" ++ c.author ++ "**:\n")
    :: ((pySplitlines c.body).map (fun line => ind ++ "  " ++ line)) ++ [""]

/-- The full `md_lines` list built by `fetch_hn_thread_markdown`. -/
def md_lines (title : String) (comments : List CommentRecord) : List String :=
  ["# " ++ title ++ "\n\n", pyStrip CONTEXT_PROMPT ++ "\n\n", "## Comments\n\n"]
    ++ (comments.map commentLines).flatten

/-- The rendering step of `fetch_hn_thread_markdown`:
`"\n".join(md_lines)`. -/
def render_markdown (title : String) (comments : List CommentRecord) : String :=
  String.intercalate "\n" (md_lines title comments)

/-- Mirrors the title resolution: the `<title>` text, or the synthesized
fallback `"hn_" + url.split('=')[-1]` when the element is missing. -/
def title_text (tp : ThreadPage) : String :=
  match tp.title with
  | some t => t
  | none => "hn_" ++ tp.urlLastSegment

/-- Mirrors `fetch_hn_thread_markdown` (minus the HTTP fetch): resolve the
title, flatten the comment rows, render; a missing comment container
anywhere propagates as the unhandled fault. -/
def fetch_hn_thread_markdown (tp : ThreadPage) : Except FlattenError (String × String) :=
  match flattenRows tp.rows with
  | Except.error e => Except.error e
  | Except.ok cs => Except.ok (title_text tp, render_markdown (title_text tp) cs)

/-- Formalises the spec's wording for the link-recognition pattern (spec
section 4.1: an item identifier `item?id=<digits>`, "optionally prefixed
with stray path components"): the string ends in `item?id=` followed by one
or more digits, with an arbitrary prefix allowed before it.  This is the
spec-side definition used to compare the spec's wording against the
source's regex `^/?item\?id=\d+$` (`item_href_matches`). -/
def spec_item_pattern (s : String) : Bool :=
  (List.range (s.toList.length + 1)).any (fun k =>
    let t := s.toList.drop k
    List.isPrefixOf "item?id=".toList t
      && !((t.drop 8).isEmpty) && (t.drop 8).all Char.isDigit)

/-- The two comment records of the spec's round-trip scenario. -/
def c3records : List CommentRecord :=
  [⟨0, "alice", "hi"⟩, ⟨1, "bob", "reply\nline2"⟩]

/-- A one-page listing with a single item link and no "More" control. -/
def pageA : ListingPage := ⟨"favorites page", [⟨"item?id=1", "thread one"⟩]⟩

/-- A listing page carrying one item link and a "More" pagination control. -/
def dupPage1 : ListingPage :=
  ⟨"favorites page", [⟨"item?id=1", "thread one"⟩, ⟨"favorites?id=u&p=2", "More"⟩]⟩

/-- A second listing page repeating the same item link, with no "More". -/
def dupPage2 : ListingPage := ⟨"favorites page", [⟨"item?id=1", "thread one"⟩]⟩

/-- The normalized absolute URL of item 1. -/
def hnUrl1 : String := "https://news.ycombinator.com/item?id=1"

/-- A listing page whose whole text is the missing-user sentinel. -/
def noUserPage : ListingPage := ⟨"No such user.", []⟩

/-- A listing page whose only anchor's href carries a stray path component
before the item identifier. -/
def strayPage : ListingPage := ⟨"some page", [⟨"extra/item?id=123", "a thread"⟩]⟩

/-- C3 (counterexample): in the document rendered from the round-trip
scenario, the line `- **alice**:` is never immediately followed by the line
`  hi` — the author-line entry of `md_lines` ends with its own `"\n"` and
`"\n".join` inserts another, so a blank line always intervenes. -/
theorem c3_counterexample :
    ¬ (["- **alice**:", "  hi"] <:+:
      docLines (render_markdown "Test Thread" c3records)) := by
  decide

/-- C3 (amended): the document rendered from the scenario consists of
exactly these lines — each author line (`"  " * depth + "- **author**:"`)
is followed by one blank line, then the body lines re-indented by the depth
prefix plus two spaces, then the blank separator line. -/
theorem c3_render_lines :
    docLines (render_markdown "Test Thread" c3records) =
      ["# Test Thread", "", "", "## Context", "",
       "The following is a Hacker News thread in markdown format. The comments discuss a",
       "certain link, of which the content (besides the title) is not included here. The",
       "comments are indented according to the level of the comment, with the top-level",
       "comment being unindented.", "", "", "## Comments", "", "",
       "- **alice**:", "", "  hi", "",
       "  - **bob**:", "", "    reply", "    line2", ""] := by
  rfl

/-- C7: rendering is deterministic and idempotent on its inputs — the
renderer is a pure function of the title and the ordered record sequence,
so rendering the same inputs twice yields byte-identical output. -/
theorem c7_render_deterministic (title : String) (cs : List CommentRecord) :
    render_markdown title cs = render_markdown title cs := rfl

/-- C4: a listing page whose entire text equals the sentinel
`"No such user."` makes extraction fail with the validation error (and
hence return no links), and a page whose text differs never raises it —
extraction then returns the page's links and next-page URL. -/
theorem c4_no_such_user (p : ListingPage) :
    (p.pageText = "No such user." →
      get_item_links_from_page p = Except.error ExtractError.validationError)
    ∧ (p.pageText ≠ "No such user." →
      get_item_links_from_page p = Except.ok (extractLinks p, next_page p)) := by
  constructor
  · intro h
    simp [get_item_links_from_page, user_exists, h]
  · intro h
    simp [get_item_links_from_page, user_exists, h]

/-- Witness for C4 at the sentinel page. -/
theorem c4_witness :
    get_item_links_from_page noUserPage = Except.error ExtractError.validationError :=
  (c4_no_such_user noUserPage).1 rfl

/-- C5: the depth the flattener assigns to a row is the row's indentation
width in pixels integer-divided by 40, and is 0 when the row has no
indentation indicator (no `td.ind` cell, or one without an `img`). -/
theorem c5_depth (row : CommentRow) (c : CommentRecord)
    (h : flattenRow row = Except.ok c) :
    (∀ td w, row.indTd = some td → td.img = some w → c.depth = w / 40)
    ∧ (row.indTd = none → c.depth = 0)
    ∧ (∀ td, row.indTd = some td → td.img = none → c.depth = 0) := by
  cases hd : row.commentDiv with
  | none => simp [flattenRow, hd] at h
  | some chunks =>
    simp [flattenRow, hd] at h
    refine ⟨?_, ?_, ?_⟩
    · intro td w h1 h2
      simp [← h, indent_px, h1, h2]
    · intro h1
      simp [← h, indent_px, h1]
    · intro td h1 h2
      simp [← h, indent_px, h1, h2]

/-- Witness for C5: a row indented 80 pixels gets depth 2 = 80 / 40. -/
theorem c5_witness : (CommentRecord.mk 2 "[deleted]" "").depth = 80 / 40 :=
  (c5_depth ⟨some ⟨some 80⟩, none, some []⟩ ⟨2, "[deleted]", ""⟩ rfl).1
    ⟨some 80⟩ 80 rfl rfl

/-- C8: a row with no author link gets the literal placeholder
`"[deleted]"` as author; a row with an author link gets that link's display
name. -/
theorem c8_author (row : CommentRow) (c : CommentRecord)
    (h : flattenRow row = Except.ok c) :
    (row.authorLink = none → c.author = "[deleted]")
    ∧ (∀ s, row.authorLink = some s → c.author = s) := by
  cases hd : row.commentDiv with
  | none => simp [flattenRow, hd] at h
  | some chunks =>
    simp [flattenRow, hd] at h
    constructor
    · intro h1
      simp [← h, author_text, h1]
    · intro s h1
      simp [← h, author_text, h1]

/-- Witness for C8: a row whose author link reads "carol". -/
theorem c8_witness : (CommentRecord.mk 0 "carol" "").author = "carol" :=
  (c8_author ⟨none, some "carol", some []⟩ ⟨0, "carol", ""⟩ rfl).2 "carol" rfl

/-- Flattening a row list fails with the missing-container fault as soon as
any row's comment container is absent — the loop has no fallback. -/
theorem flattenRows_error_of_missing (rows : List CommentRow)
    (h : ∃ row ∈ rows, row.commentDiv = none) :
    flattenRows rows = Except.error FlattenError.missingCommentContainer := by
  induction rows with
  | nil => simp at h
  | cons r rs ih =>
    obtain ⟨row, hmem, hnone⟩ := h
    rcases List.mem_cons.mp hmem with heq | hmem2
    · subst heq
      simp [flattenRows, flattenRow, hnone]
    · cases hd : r.commentDiv with
      | none => simp [flattenRows, flattenRow, hd]
      | some chunks =>
        simp [flattenRows, flattenRow, hd, ih ⟨row, hmem2, hnone⟩]

/-- C9: a thread page containing a row whose comment text container cannot
be located makes the whole flattening (and hence `fetch_hn_thread_markdown`)
fail with the unhandled structural-access fault — there is no skip or
recovery for that row. -/
theorem c9_missing_container (tp : ThreadPage)
    (h : ∃ row ∈ tp.rows, row.commentDiv = none) :
    fetch_hn_thread_markdown tp = Except.error FlattenError.missingCommentContainer := by
  rw [fetch_hn_thread_markdown, flattenRows_error_of_missing tp.rows h]

/-- Witness for C9: a one-row page whose row has no comment container. -/
theorem c9_witness :
    fetch_hn_thread_markdown ⟨some "T", "42", [⟨none, none, none⟩]⟩ =
      Except.error FlattenError.missingCommentContainer :=
  c9_missing_container ⟨some "T", "42", [⟨none, none, none⟩]⟩
    ⟨⟨none, none, none⟩, List.mem_singleton.mpr rfl, rfl⟩

/-- C10: the walker always fetches and validates the first listing page
before the limit applies — with limit 0 it still raises the validation
error on a sentinel first page, and on a valid first page it returns the
empty list (the limit check only happens after the first page's links are
accumulated). -/
theorem c10_first_page_validated (p : ListingPage) (rest : List ListingPage) :
    (p.pageText = "No such user." →
      retrieve_user_favorite_links (p :: rest) 0 =
        Except.error ExtractError.validationError)
    ∧ (p.pageText ≠ "No such user." →
      retrieve_user_favorite_links (p :: rest) 0 = Except.ok []) := by
  constructor
  · intro h
    simp [retrieve_user_favorite_links, walkPages, get_item_links_from_page,
      user_exists, h]
  · intro h
    simp [retrieve_user_favorite_links, walkPages, get_item_links_from_page,
      user_exists, h]

/-- Witness for C10 at the sentinel page with limit 0. -/
theorem c10_witness :
    retrieve_user_favorite_links [noUserPage] 0 =
      Except.error ExtractError.validationError :=
  (c10_first_page_validated noUserPage []).1 rfl

/-- Inversion of a successful page extraction: the returned pair is the
page's links and next-page URL. -/
theorem get_item_ok_inv (p : ListingPage) (links : List String)
    (next : Option String)
    (h : get_item_links_from_page p = Except.ok (links, next)) :
    links = extractLinks p ∧ next = next_page p := by
  by_cases hu : user_exists p
  · simp [get_item_links_from_page, hu] at h
    exact ⟨h.1.symm, h.2.symm⟩
  · simp [get_item_links_from_page, hu] at h

/-- The walk never returns more links than the limit, provided the
accumulator starts within the limit. -/
theorem walkPages_length_le (pages : List ListingPage) :
    ∀ (limit : Nat) (acc l : List String), acc.length ≤ limit →
      walkPages pages limit acc = Except.ok l → l.length ≤ limit := by
  induction pages with
  | nil =>
    intro limit acc l hle h
    simp [walkPages] at h
    subst h
    exact hle
  | cons p rest ih =>
    intro limit acc l hle h
    cases hg : get_item_links_from_page p with
    | error e => simp [walkPages, hg] at h
    | ok pr =>
      obtain ⟨links, next⟩ := pr
      simp only [walkPages, hg] at h
      by_cases hlim : limit ≤ (acc ++ links).length
      · rw [if_pos hlim] at h
        simp only [Except.ok.injEq] at h
        subst h
        simp [List.length_take]
      · rw [if_neg hlim] at h
        push_neg at hlim
        cases hn : next with
        | none =>
          rw [hn] at h
          simp only [Except.ok.injEq] at h
          subst h
          exact le_of_lt hlim
        | some u =>
          rw [hn] at h
          exact ih limit (acc ++ links) l (le_of_lt hlim) h

/-- When enough links are discoverable along the page chain, the walk
returns exactly the limit. -/
theorem walkPages_length_eq (pages : List ListingPage) :
    ∀ (limit : Nat) (acc l : List String), acc.length ≤ limit →
      limit ≤ acc.length + discoverable pages →
      walkPages pages limit acc = Except.ok l → l.length = limit := by
  induction pages with
  | nil =>
    intro limit acc l hle hd h
    simp [walkPages] at h
    subst h
    simp [discoverable] at hd
    exact le_antisymm hle hd
  | cons p rest ih =>
    intro limit acc l hle hd h
    cases hg : get_item_links_from_page p with
    | error e => simp [walkPages, hg] at h
    | ok pr =>
      obtain ⟨links, next⟩ := pr
      obtain ⟨hl, hn⟩ := get_item_ok_inv p links next hg
      simp only [walkPages, hg] at h
      by_cases hlim : limit ≤ (acc ++ links).length
      · rw [if_pos hlim] at h
        simp only [Except.ok.injEq] at h
        subst h
        simp only [List.length_take]
        omega
      · rw [if_neg hlim] at h
        push_neg at hlim
        cases hmore : moreHref p with
        | none =>
          have hnn : next = none := by
            rw [hn, next_page, hmore]
            rfl
          rw [hnn] at h
          simp only [Except.ok.injEq] at h
          subst h
          exfalso
          rw [discoverable, hmore] at hd
          simp at hd
          rw [List.length_append, hl] at hlim
          omega
        | some u =>
          have hns : next = some (BASE_URL ++ "/" ++ u) := by
            rw [hn, next_page, hmore]
            rfl
          rw [hns] at h
          refine ih limit (acc ++ links) l (le_of_lt hlim) ?_ h
          rw [discoverable, hmore] at hd
          simp only [Option.isSome_some, if_true] at hd
          rw [List.length_append, hl]
          omega

/-- C1: for every limit, a successful run returns at most `limit` links,
and exactly `limit` when at least `limit` links are discoverable along the
paginated listing chain (per-page deduplicated link counts summed over the
reachable pages): the walk stops when no next-page URL exists or when the
accumulated count reaches or exceeds the limit, truncating to exactly the
limit in the latter case. -/
theorem c1_limit_semantics (pages : List ListingPage) (limit : Nat)
    (l : List String)
    (h : retrieve_user_favorite_links pages limit = Except.ok l) :
    l.length ≤ limit ∧ (limit ≤ discoverable pages → l.length = limit) := by
  constructor
  · exact walkPages_length_le pages limit [] l (Nat.zero_le _) h
  · intro hd
    refine walkPages_length_eq pages limit [] l (Nat.zero_le _) ?_ h
    simpa using hd

/-- Witness for C1: one page with one link and limit 1. -/
theorem c1_witness :
    ([hnUrl1].length ≤ 1) ∧ (1 ≤ discoverable [pageA] → [hnUrl1].length = 1) :=
  c1_limit_semantics [pageA] 1 [hnUrl1] rfl

/-- A successful walk returns a prefix of the accumulator followed by the
per-page link lists of the reachable page chain, in page order. -/
theorem walkPages_chain (pages : List ListingPage) :
    ∀ (limit : Nat) (acc l : List String),
      walkPages pages limit acc = Except.ok l →
      l <+: acc ++ pageChainLinks pages := by
  induction pages with
  | nil =>
    intro limit acc l h
    simp [walkPages] at h
    subst h
    simp [pageChainLinks]
  | cons p rest ih =>
    intro limit acc l h
    cases hg : get_item_links_from_page p with
    | error e => simp [walkPages, hg] at h
    | ok pr =>
      obtain ⟨links, next⟩ := pr
      obtain ⟨hl, hn⟩ := get_item_ok_inv p links next hg
      simp only [walkPages, hg] at h
      by_cases hlim : limit ≤ (acc ++ links).length
      · rw [if_pos hlim] at h
        simp only [Except.ok.injEq] at h
        subst h
        subst hl
        refine (List.take_prefix _ _).trans ?_
        rw [pageChainLinks, ← List.append_assoc]
        exact List.prefix_append _ _
      · rw [if_neg hlim] at h
        cases hmore : moreHref p with
        | none =>
          have hnn : next = none := by
            rw [hn, next_page, hmore]
            rfl
          rw [hnn] at h
          simp only [Except.ok.injEq] at h
          subst h
          subst hl
          rw [pageChainLinks, hmore]
          simp
        | some u =>
          have hns : next = some (BASE_URL ++ "/" ++ u) := by
            rw [hn, next_page, hmore]
            rfl
          rw [hns] at h
          have := ih limit (acc ++ links) l h
          rw [pageChainLinks, hmore]
          simp only [Option.isSome_some, if_true]
          rw [← List.append_assoc]
          rw [hl] at this
          exact this

/-- C2 (counterexample): when the same thread link appears on two
successive listing pages, the accumulated result contains it twice — the
walker does not deduplicate across pages, so the claimed whole-run set
semantics fails. -/
theorem c2_counterexample :
    retrieve_user_favorite_links [dupPage1, dupPage2] 10 =
      Except.ok [hnUrl1, hnUrl1]
    ∧ ¬ ([hnUrl1, hnUrl1].Nodup) := by
  constructor
  · rfl
  · decide

/-- C2 (amended): each page's contribution to the accumulator is
duplicate-free (per-page set extraction) and the pages' contributions
appear in page-fetch order — every successful result is a prefix (because
of limit truncation) of the concatenation of the per-page link lists along
the reachable chain — but the same link may recur across different pages. -/
theorem c2_page_order (pages : List ListingPage) (limit : Nat)
    (l : List String)
    (h : retrieve_user_favorite_links pages limit = Except.ok l) :
    l <+: pageChainLinks pages ∧ ∀ p ∈ pages, (extractLinks p).Nodup := by
  constructor
  · have := walkPages_chain pages limit [] l h
    simpa using this
  · intro p _
    unfold extractLinks
    exact List.nodup_dedup _

/-- Witness for C2's amended statement at the duplicated two-page chain. -/
theorem c2_page_order_witness :
    ([hnUrl1, hnUrl1] <+: pageChainLinks [dupPage1, dupPage2])
    ∧ ∀ p ∈ [dupPage1, dupPage2], (extractLinks p).Nodup :=
  c2_page_order [dupPage1, dupPage2] 10 [hnUrl1, hnUrl1] rfl

/-- C6 (counterexample): an anchor href carrying a stray path component
before the item identifier matches the spec's wording
(`spec_item_pattern`) but contributes no link — the source regex allows at
most a single optional leading slash, so the claimed extraction set is
wrong at this page. -/
theorem c6_counterexample :
    spec_item_pattern "extra/item?id=123" = true
    ∧ extractLinks strayPage = [] := by
  constructor
  · rfl
  · rfl

/-- C6 (amended): extraction returns exactly the normalized absolute URLs
of the anchors whose href matches `item?id=<digits>` with at most one
optional leading slash (the regex `^/?item\?id=\d+$`) — no other stray
prefix is accepted — as a duplicate-free collection, and normalization
coalesces the slash variants of the same item href. -/
theorem c6_extraction (p : ListingPage) (u : String) :
    (u ∈ extractLinks p ↔
      ∃ a ∈ p.anchors, item_href_matches a.href = true ∧ u = normalize_href a.href)
    ∧ (extractLinks p).Nodup
    ∧ ∀ s : String, normalize_href ("/" ++ s) = normalize_href s := by
  refine ⟨?_, ?_, ?_⟩
  · unfold extractLinks
    simp only [List.mem_dedup, List.mem_map, List.mem_filter]
    constructor
    · rintro ⟨a, ⟨hmem, hmatch⟩, heq⟩
      exact ⟨a, hmem, hmatch, heq.symm⟩
    · rintro ⟨a, hmem, hmatch, heq⟩
      exact ⟨a, ⟨hmem, hmatch⟩, heq.symm⟩
  · unfold extractLinks
    exact List.nodup_dedup _
  · intro s
    obtain ⟨data⟩ := s
    rfl

/-- Witness for C6's amended statement: the slashed and unslashed variants
of item 1 normalize identically, and the stray-prefixed page extracts a
duplicate-free (empty) collection. -/
theorem c6_extraction_witness :
    (hnUrl1 ∈ extractLinks pageA ↔
      ∃ a ∈ pageA.anchors,
        item_href_matches a.href = true ∧ hnUrl1 = normalize_href a.href)
    ∧ (extractLinks pageA).Nodup
    ∧ ∀ s : String, normalize_href ("/" ++ s) = normalize_href s :=
  c6_extraction pageA hnUrl1
